import Mathlib

/-!
Shallow embedding of `src/traffic_simulator.py` (Nagel–Schreckenberg traffic
cellular automaton).  Machine integers are modelled as `Nat`/`Int`; the numpy
floating-point quantities (`brake_prob`, the uniform draws of
`np.random.random()`, the recorded flow and average-speed metrics) are
modelled as `ℚ`.  The process-wide numpy random generator is modelled as an
abstract deterministic stream: a function `ℕ → ℕ` feeding the integer draws
(`np.random.choice`, `np.random.randint`), a function `ℕ → ℚ` feeding the
uniform draws (`np.random.random()`), and a cursor that advances by one per
draw, in the order the source performs the draws.
-/

namespace TrafficSim

/-- Mirror of the mutable fields of the Python class `TrafficSimulator`:
parameters, the two parallel vehicle arrays, and the three history buffers. -/
structure SimState where
  roadLength : ℕ
  maxSpeed : ℕ
  brakeProb : ℚ
  density : ℚ
  numVehicles : ℕ
  positions : List ℕ
  speeds : List ℕ
  spaceTimeData : List (List ℕ)
  flowData : List ℚ
  avgSpeedData : List ℚ
deriving Repr, DecidableEq

/-- Constructor parameters of `TrafficSimulator.__init__`, in source order. -/
structure Params where
  roadLength : ℕ
  density : ℚ
  maxSpeed : ℕ
  brakeProb : ℚ

/-- Model of the process-wide numpy random generator: two abstract value
streams and the cursor of the next draw. -/
structure NpRng where
  ints : ℕ → ℕ
  rats : ℕ → ℚ
  k : ℕ

/-- Embedding of `TrafficSimulator._calculate_gap`.  `next_vehicles` is
`self.positions[self.positions > vehicle_pos]`: the boolean mask keeps array
order, so `next_vehicles[0]` is the first element in array order, not
necessarily the smallest.  The wrap-around branch uses
`np.min(self.positions[self.positions < vehicle_pos])`, a true minimum. -/
def calculateGap (positions : List ℕ) (roadLength vehiclePos : ℕ) : ℤ :=
  match positions.filter (fun q => decide (vehiclePos < q)) with
  | q :: _ => (q : ℤ) - (vehiclePos : ℤ) - 1
  | [] =>
    match positions.filter (fun q => decide (q < vehiclePos)) with
    | b :: bs => ((roadLength : ℤ) - (vehiclePos : ℤ) - 1) + ((bs.foldl Nat.min b : ℕ) : ℤ)
    | [] => (roadLength : ℤ) - 1

/-- Gap as the specification words it (§4.1 "Gap query"): the *smallest*
position `> p` when one exists; otherwise the wrap-around distance; otherwise
`road_length − 1`.  Stated separately from `calculateGap` so the two can be
compared. -/
def specGap (positions : List ℕ) (roadLength vehiclePos : ℕ) : ℤ :=
  match positions.filter (fun q => decide (vehiclePos < q)) with
  | q :: qs => ((qs.foldl Nat.min q : ℕ) : ℤ) - (vehiclePos : ℤ) - 1
  | [] =>
    match positions.filter (fun q => decide (q < vehiclePos)) with
    | b :: bs => ((roadLength : ℤ) - (vehiclePos : ℤ) - 1) + ((bs.foldl Nat.min b : ℕ) : ℤ)
    | [] => (roadLength : ℤ) - 1

/-- Stage 1 of `step` (acceleration): `if speed < max_speed: speed + 1`. -/
def accelSpeed (maxSpeed speed : ℕ) : ℕ :=
  if speed < maxSpeed then speed + 1 else speed

/-- Speed of vehicle `idx` after stage 2 of `step` (deceleration):
`if new_speeds[idx] > gap: new_speeds[idx] = max(0, int(gap))`, computed from
the pre-step snapshots of positions and speeds. -/
def postClampSpeed (roadLength maxSpeed : ℕ) (posSnap speedSnap : List ℕ) (idx : ℕ) : ℕ :=
  let pos := posSnap.getD idx 0
  let v1 := accelSpeed maxSpeed (speedSnap.getD idx 0)
  let gap := calculateGap posSnap roadLength pos
  if (v1 : ℤ) > gap then gap.toNat else v1

/-- Stage 3 of `step` (random braking) applied on top of stage 2: the draw is
taken only when the clamped speed is positive (`new_speeds[idx] > 0 and
np.random.random() < self.brake_prob` short-circuits), and `k` is the cursor
of the draw consumed. -/
def finalSpeed (roadLength maxSpeed : ℕ) (brakeProb : ℚ) (posSnap speedSnap : List ℕ)
    (rng : ℕ → ℚ) (k idx : ℕ) : ℕ :=
  let v2 := postClampSpeed roadLength maxSpeed posSnap speedSnap idx
  if 0 < v2 then (if rng k < brakeProb then v2 - 1 else v2) else v2

/-- Number of uniform draws vehicle `idx` consumes during a step: one when its
post-clamp speed is positive, none otherwise. -/
def drawCount (roadLength maxSpeed : ℕ) (posSnap speedSnap : List ℕ) (idx : ℕ) : ℕ :=
  if 0 < postClampSpeed roadLength maxSpeed posSnap speedSnap idx then 1 else 0

/-- Body of the `for idx in np.argsort(self.positions)` loop: stages 1–4 for
one vehicle.  Reads come from the pre-step snapshots `posSnap`/`speedSnap`;
writes go to the accumulated output arrays; the draw cursor advances by
`drawCount`.  Stage 4 is `new_positions[idx] = (pos + new_speeds[idx]) %
road_length`. -/
def processOne (roadLength maxSpeed : ℕ) (brakeProb : ℚ) (posSnap speedSnap : List ℕ)
    (rng : ℕ → ℚ) (acc : List ℕ × List ℕ × ℕ) (idx : ℕ) : List ℕ × List ℕ × ℕ :=
  let v3 := finalSpeed roadLength maxSpeed brakeProb posSnap speedSnap rng acc.2.2 idx
  (acc.1.set idx v3,
   acc.2.1.set idx ((posSnap.getD idx 0 + v3) % roadLength),
   acc.2.2 + drawCount roadLength maxSpeed posSnap speedSnap idx)

/-- Comparison key of `np.argsort(self.positions)`: sort indices by position
(ties, impossible for distinct positions, are broken by index). -/
def posKeyLe (a b : ℕ × ℕ) : Prop :=
  a.2 < b.2 ∨ (a.2 = b.2 ∧ a.1 ≤ b.1)

instance : DecidableRel posKeyLe :=
  fun a b => inferInstanceAs (Decidable (a.2 < b.2 ∨ (a.2 = b.2 ∧ a.1 ≤ b.1)))

/-- Embedding of `np.argsort(self.positions)`: the list of indices of
`positions` ordered by increasing position. -/
def argsort (ps : List ℕ) : List ℕ :=
  (List.insertionSort posKeyLe ps.enum).map Prod.fst

/-- The loop of `TrafficSimulator.step` before the state is written back:
fold the per-vehicle update over the processing order, starting from copies of
the current arrays and the current draw cursor. -/
def stepCore (st : SimState) (rng : ℕ → ℚ) (k : ℕ) : List ℕ × List ℕ × ℕ :=
  (argsort st.positions).foldl
    (processOne st.roadLength st.maxSpeed st.brakeProb st.positions st.speeds rng)
    (st.speeds, st.positions, k)

/-- Embedding of `TrafficSimulator.get_road_state`: a `road_length`-sized
array of zeros with `road[pos] = speeds[i]` for each vehicle. -/
def getRoadState (s : SimState) : List ℕ :=
  (s.positions.zip s.speeds).foldl (fun road pq => road.set pq.1 pq.2)
    (List.replicate s.roadLength 0)

/-- Embedding of `TrafficSimulator._collect_data`: append the occupancy
snapshot, `flow = np.sum(speeds) / road_length`, and
`avg_speed = np.mean(speeds) if len(speeds) > 0 else 0`. -/
def collectData (s : SimState) : SimState :=
  { s with
    spaceTimeData := s.spaceTimeData ++ [getRoadState s]
    flowData := s.flowData ++ [((s.speeds.sum : ℚ)) / (s.roadLength : ℚ)]
    avgSpeedData := s.avgSpeedData ++
      [if 0 < s.speeds.length then ((s.speeds.sum : ℚ)) / (s.speeds.length : ℚ) else 0] }

/-- Embedding of `TrafficSimulator.step`: run the per-vehicle loop on the
pre-step snapshot, write the fresh arrays back, then collect data.  Returns
the new state together with the advanced draw cursor. -/
def step (st : SimState) (rng : ℕ → ℚ) (k : ℕ) : SimState × ℕ :=
  (collectData { st with
      speeds := (stepCore st rng k).1
      positions := (stepCore st rng k).2.1 },
   (stepCore st rng k).2.2)

/-- The loop of `run_simulation`: `for step in range(steps)` executed forward. -/
def runAux (rng : ℕ → ℚ) : ℕ → SimState × ℕ → SimState × ℕ
  | 0, p => p
  | n + 1, p => runAux rng n (step p.1 rng p.2)

/-- Embedding of `TrafficSimulator.run_simulation(steps)`: the loop body runs
`max(steps, 0)` times (`range(steps)` is empty for negative `steps`); the
progress printing is I/O only and is not modelled. -/
def runSimulation (st : SimState) (rng : ℕ → ℚ) (k : ℕ) (steps : ℤ) : SimState × ℕ :=
  runAux rng steps.toNat (st, k)

/-- Sequential n-fold application of `step`, used to state that
`run_simulation` calls `step` exactly `steps` times. -/
def stepN (rng : ℕ → ℚ) : ℕ → SimState × ℕ → SimState × ℕ
  | 0, p => p
  | n + 1, p => step (stepN rng n p).1 rng (stepN rng n p).2

/-- Python truthiness of the `random_seed` argument as used by
`if random_seed:` — `None` and `0` are both falsy. -/
def pyTruthy : Option ℕ → Bool
  | none => false
  | some s => s != 0

/-- Effect of `np.random.seed(s)`: the generator streams become the seeded
family's streams for `s` and the cursor restarts at 0. -/
def npSeedReset (fam : ℕ → (ℕ → ℕ) × (ℕ → ℚ)) (s : ℕ) : NpRng :=
  ⟨(fam s).1, (fam s).2, 0⟩

/-- Model of `np.random.choice(road_length, n, replace=False)`: draw `n`
distinct elements from the pool, each draw selecting an index into the
remaining pool and consuming one stream value. -/
def choiceNoReplace (ints : ℕ → ℕ) : ℕ → ℕ → List ℕ → List ℕ × ℕ
  | k, 0, _ => ([], k)
  | k, n + 1, pool =>
    if pool.isEmpty then ([], k)
    else
      let i := ints k % pool.length
      let rest := choiceNoReplace ints (k + 1) n (pool.eraseIdx i)
      (pool.getD i 0 :: rest.1, rest.2)

/-- Model of `np.random.randint(0, bound, n)`: `n` draws, each reduced into
`[0, bound)`, consuming one stream value per draw. -/
def randNats (ints : ℕ → ℕ) : ℕ → ℕ → ℕ → List ℕ × ℕ
  | k, 0, _ => ([], k)
  | k, n + 1, bound =>
    let rest := randNats ints (k + 1) n bound
    ((ints k % bound) :: rest.1, rest.2)

/-- Embedding of `num_vehicles = int(density * road_length)`: the exact value
`density * road_length` is `density.num * road_length / density.den`, and
Python's `int()` truncates toward zero, which is `Int.tdiv`. -/
def numVehiclesOf (p : Params) : ℕ :=
  ((p.density.num * (p.roadLength : ℤ)).tdiv (p.density.den : ℤ)).toNat

/-- Embedding of `TrafficSimulator.__init__`: optionally reseed the global
generator (`if random_seed:`), compute `num_vehicles = int(density *
road_length)`, draw sorted distinct positions, draw initial speeds in
`[0, max_speed]`, and start with empty history buffers. -/
def construct (fam : ℕ → (ℕ → ℕ) × (ℕ → ℚ)) (p : Params) (seed : Option ℕ)
    (g0 : NpRng) : SimState × NpRng :=
  let g := if pyTruthy seed then npSeedReset fam (seed.getD 0) else g0
  let n := numVehiclesOf p
  let c := choiceNoReplace g.ints g.k n (List.range p.roadLength)
  let sortedPos := List.insertionSort (· ≤ ·) c.1
  let r := randNats g.ints c.2 n (p.maxSpeed + 1)
  (⟨p.roadLength, p.maxSpeed, p.brakeProb, p.density, n, sortedPos, r.1, [], [], []⟩,
   ⟨g.ints, g.rats, r.2⟩)

/-- Construct an engine and drive it for `steps` steps, threading the global
generator through construction and every braking draw. -/
def constructAndRun (fam : ℕ → (ℕ → ℕ) × (ℕ → ℚ)) (p : Params) (seed : Option ℕ)
    (g0 : NpRng) (steps : ℤ) : SimState × NpRng :=
  let cg := construct fam p seed g0
  let r := runSimulation cg.1 cg.2.rats cg.2.k steps
  (r.1, ⟨cg.2.ints, cg.2.rats, r.2⟩)

/-! Auxiliary list lemmas used by the step-loop proofs. -/

theorem getD_set_self {α : Type} (l : List α) (i : ℕ) (x d : α) (h : i < l.length) :
    (l.set i x).getD i d = x := by
  induction l generalizing i with
  | nil => simp at h
  | cons a t ih =>
    cases i with
    | zero => rfl
    | succ j => exact ih j (Nat.lt_of_succ_lt_succ h)

theorem getD_set_ne {α : Type} (l : List α) (i j : ℕ) (x d : α) (h : i ≠ j) :
    (l.set i x).getD j d = l.getD j d := by
  induction l generalizing i j with
  | nil => simp
  | cons a t ih =>
    cases i with
    | zero =>
      cases j with
      | zero => exact absurd rfl h
      | succ m => rfl
    | succ n =>
      cases j with
      | zero => rfl
      | succ m => exact ih n m fun hnm => h (by rw [hnm])

theorem getD_le_of_all (l : List ℕ) (m i : ℕ) (h : ∀ v ∈ l, v ≤ m) :
    l.getD i 0 ≤ m := by
  induction l generalizing i with
  | nil => simp
  | cons a t ih =>
    cases i with
    | zero => exact h a (List.mem_cons_self a t)
    | succ j => exact ih j fun v hv => h v (List.mem_cons_of_mem a hv)

/-! Properties of the processing order `argsort`. -/

theorem argsort_perm_range (ps : List ℕ) : (argsort ps).Perm (List.range ps.length) := by
  unfold argsort
  have h := (List.perm_insertionSort posKeyLe ps.enum).map Prod.fst
  rwa [List.enum_map_fst] at h

theorem argsort_nodup (ps : List ℕ) : (argsort ps).Nodup :=
  (argsort_perm_range ps).nodup_iff.mpr (List.nodup_range _)

theorem mem_argsort (ps : List ℕ) (i : ℕ) : i ∈ argsort ps ↔ i < ps.length := by
  rw [(argsort_perm_range ps).mem_iff, List.mem_range]

/-! Behaviour of the per-step fold. -/

theorem foldl_processOne_lengths (roadLength maxSpeed : ℕ) (brakeProb : ℚ)
    (posSnap speedSnap : List ℕ) (rng : ℕ → ℚ) (order : List ℕ) :
    ∀ acc : List ℕ × List ℕ × ℕ,
      (order.foldl (processOne roadLength maxSpeed brakeProb posSnap speedSnap rng) acc).1.length
          = acc.1.length ∧
        (order.foldl (processOne roadLength maxSpeed brakeProb posSnap speedSnap rng)
              acc).2.1.length = acc.2.1.length := by
  induction order with
  | nil => intro acc; exact ⟨rfl, rfl⟩
  | cons o rest ih =>
    intro acc
    rw [List.foldl_cons]
    refine ⟨((ih _).1).trans ?_, ((ih _).2).trans ?_⟩
    · simp [processOne]
    · simp [processOne]

theorem foldl_processOne_cursor (roadLength maxSpeed : ℕ) (brakeProb : ℚ)
    (posSnap speedSnap : List ℕ) (rng : ℕ → ℚ) (order : List ℕ) :
    ∀ acc : List ℕ × List ℕ × ℕ,
      (order.foldl (processOne roadLength maxSpeed brakeProb posSnap speedSnap rng) acc).2.2 =
        acc.2.2 + (order.countP
          (fun idx => decide (0 < postClampSpeed roadLength maxSpeed posSnap speedSnap idx))) := by
  induction order with
  | nil => intro acc; simp
  | cons o rest ih =>
    intro acc
    rw [List.foldl_cons, ih, List.countP_cons]
    by_cases h : 0 < postClampSpeed roadLength maxSpeed posSnap speedSnap o
    · simp [processOne, drawCount, h]; omega
    · simp [processOne, drawCount, h]

theorem foldl_processOne_stable (roadLength maxSpeed : ℕ) (brakeProb : ℚ)
    (posSnap speedSnap : List ℕ) (rng : ℕ → ℚ) (order : List ℕ) (idx : ℕ)
    (h : idx ∉ order) :
    ∀ acc : List ℕ × List ℕ × ℕ,
      (order.foldl (processOne roadLength maxSpeed brakeProb posSnap speedSnap rng)
          acc).1.getD idx 0 = acc.1.getD idx 0 := by
  induction order with
  | nil => intro acc; rfl
  | cons o rest ih =>
    intro acc
    have hne : o ≠ idx := fun he => h (he ▸ List.mem_cons_self o rest)
    have hrest : idx ∉ rest := fun hm => h (List.mem_cons_of_mem o hm)
    rw [List.foldl_cons, ih hrest]
    exact getD_set_ne _ _ _ _ _ hne

theorem foldl_processOne_speed_at (roadLength maxSpeed : ℕ) (brakeProb : ℚ)
    (posSnap speedSnap : List ℕ) (rng : ℕ → ℚ) (order : List ℕ) (idx : ℕ)
    (hnd : order.Nodup) (hmem : idx ∈ order) :
    ∀ acc : List ℕ × List ℕ × ℕ, idx < acc.1.length →
      ∃ m, (order.foldl (processOne roadLength maxSpeed brakeProb posSnap speedSnap rng)
          acc).1.getD idx 0 =
        finalSpeed roadLength maxSpeed brakeProb posSnap speedSnap rng m idx := by
  induction order with
  | nil => exact absurd hmem (List.not_mem_nil idx)
  | cons o rest ih =>
    intro acc hlt
    rw [List.foldl_cons]
    rcases List.mem_cons.mp hmem with he | hm
    · subst he
      have hrest : idx ∉ rest := (List.nodup_cons.mp hnd).1
      rw [foldl_processOne_stable _ _ _ _ _ _ _ _ hrest]
      exact ⟨acc.2.2, getD_set_self _ _ _ _ hlt⟩
    · refine ih (List.nodup_cons.mp hnd).2 hm _ ?_
      simpa [processOne] using hlt

/-! Bounds on the per-vehicle speed pipeline. -/

theorem calculateGap_nonneg (positions : List ℕ) (roadLength vehiclePos : ℕ)
    (h : vehiclePos < roadLength) : 0 ≤ calculateGap positions roadLength vehiclePos := by
  unfold calculateGap
  split
  · rename_i q qs heq
    have hq : q ∈ positions.filter (fun x => decide (vehiclePos < x)) := by
      rw [heq]; exact List.mem_cons_self q qs
    have := of_decide_eq_true (List.mem_filter.mp hq).2
    omega
  · split
    · rename_i b bs heq
      have hb : (0 : ℤ) ≤ ((bs.foldl Nat.min b : ℕ) : ℤ) := Int.natCast_nonneg _
      omega
    · omega

theorem postClampSpeed_le_accel (roadLength maxSpeed : ℕ) (posSnap speedSnap : List ℕ)
    (idx : ℕ) :
    postClampSpeed roadLength maxSpeed posSnap speedSnap idx ≤
      accelSpeed maxSpeed (speedSnap.getD idx 0) := by
  unfold postClampSpeed
  dsimp only
  split
  · rename_i hgt
    have := Int.toNat_le.mpr (Int.le_of_lt hgt)
    omega
  · exact Nat.le_refl _

theorem finalSpeed_le_postClamp (roadLength maxSpeed : ℕ) (brakeProb : ℚ)
    (posSnap speedSnap : List ℕ) (rng : ℕ → ℚ) (k idx : ℕ) :
    finalSpeed roadLength maxSpeed brakeProb posSnap speedSnap rng k idx ≤
      postClampSpeed roadLength maxSpeed posSnap speedSnap idx := by
  unfold finalSpeed
  dsimp only
  split
  · split
    · omega
    · exact Nat.le_refl _
  · exact Nat.le_refl _

theorem finalSpeed_le_gap (roadLength maxSpeed : ℕ) (brakeProb : ℚ)
    (posSnap speedSnap : List ℕ) (rng : ℕ → ℚ) (k idx : ℕ)
    (hp : posSnap.getD idx 0 < roadLength) :
    ((finalSpeed roadLength maxSpeed brakeProb posSnap speedSnap rng k idx : ℕ) : ℤ) ≤
      calculateGap posSnap roadLength (posSnap.getD idx 0) := by
  have h1 := finalSpeed_le_postClamp roadLength maxSpeed brakeProb posSnap speedSnap rng k idx
  have hnn := calculateGap_nonneg posSnap roadLength (posSnap.getD idx 0) hp
  have h2 : ((postClampSpeed roadLength maxSpeed posSnap speedSnap idx : ℕ) : ℤ) ≤
      calculateGap posSnap roadLength (posSnap.getD idx 0) := by
    unfold postClampSpeed
    dsimp only
    split
    · rename_i hgt
      rw [Int.toNat_of_nonneg hnn]
    · rename_i hle
      omega
  omega

theorem finalSpeed_le_max (roadLength maxSpeed : ℕ) (brakeProb : ℚ)
    (posSnap speedSnap : List ℕ) (rng : ℕ → ℚ) (k idx : ℕ)
    (h : ∀ v ∈ speedSnap, v ≤ maxSpeed) :
    finalSpeed roadLength maxSpeed brakeProb posSnap speedSnap rng k idx ≤ maxSpeed := by
  have h1 := finalSpeed_le_postClamp roadLength maxSpeed brakeProb posSnap speedSnap rng k idx
  have h2 := postClampSpeed_le_accel roadLength maxSpeed posSnap speedSnap idx
  have h3 : accelSpeed maxSpeed (speedSnap.getD idx 0) ≤ maxSpeed := by
    have := getD_le_of_all speedSnap maxSpeed idx h
    unfold accelSpeed
    split <;> omega
  omega

theorem getD_mem_of_lt {α : Type} (l : List α) (i : ℕ) (d : α) (h : i < l.length) :
    l.getD i d ∈ l := by
  induction l generalizing i with
  | nil => simp at h
  | cons a t ih =>
    cases i with
    | zero => exact List.mem_cons_self a t
    | succ j => exact List.mem_cons_of_mem a (ih j (Nat.lt_of_succ_lt_succ h))

theorem mem_set_cases {α : Type} (l : List α) (i : ℕ) (x a : α) (h : a ∈ l.set i x) :
    a ∈ l ∨ a = x := by
  induction l generalizing i with
  | nil => simp at h
  | cons b t ih =>
    cases i with
    | zero =>
      rcases List.mem_cons.mp h with he | ht
      · exact Or.inr he
      · exact Or.inl (List.mem_cons_of_mem b ht)
    | succ j =>
      rcases List.mem_cons.mp h with he | ht
      · exact Or.inl (he ▸ List.mem_cons_self b t)
      · rcases ih j ht with hm | hx
        · exact Or.inl (List.mem_cons_of_mem b hm)
        · exact Or.inr hx

theorem foldl_processOne_all_le (roadLength maxSpeed : ℕ) (brakeProb : ℚ)
    (posSnap speedSnap : List ℕ) (rng : ℕ → ℚ) (hsnap : ∀ v ∈ speedSnap, v ≤ maxSpeed)
    (order : List ℕ) :
    ∀ acc : List ℕ × List ℕ × ℕ, (∀ v ∈ acc.1, v ≤ maxSpeed) →
      ∀ v ∈ (order.foldl (processOne roadLength maxSpeed brakeProb posSnap speedSnap rng)
          acc).1, v ≤ maxSpeed := by
  induction order with
  | nil => intro acc hacc; exact hacc
  | cons o rest ih =>
    intro acc hacc
    rw [List.foldl_cons]
    refine ih _ ?_
    intro v hv
    rcases mem_set_cases _ _ _ _ hv with hm | hx
    · exact hacc v hm
    · exact hx ▸ finalSpeed_le_max roadLength maxSpeed brakeProb posSnap speedSnap rng _ o hsnap

/-! Facts about a single `step` as a whole. -/

theorem step_speeds_eq (st : SimState) (rng : ℕ → ℚ) (k : ℕ) :
    (step st rng k).1.speeds = (stepCore st rng k).1 := rfl

theorem step_maxSpeed_eq (st : SimState) (rng : ℕ → ℚ) (k : ℕ) :
    (step st rng k).1.maxSpeed = st.maxSpeed := rfl

theorem step_speeds_le (st : SimState) (rng : ℕ → ℚ) (k : ℕ)
    (h : ∀ v ∈ st.speeds, v ≤ st.maxSpeed) :
    ∀ v ∈ (step st rng k).1.speeds, v ≤ st.maxSpeed := by
  rw [step_speeds_eq]
  unfold stepCore
  exact foldl_processOne_all_le st.roadLength st.maxSpeed st.brakeProb st.positions st.speeds
    rng h (argsort st.positions) (st.speeds, st.positions, k) h

theorem runAux_speeds_le (rng : ℕ → ℚ) :
    ∀ (n : ℕ) (p : SimState × ℕ), (∀ v ∈ p.1.speeds, v ≤ p.1.maxSpeed) →
      (∀ v ∈ (runAux rng n p).1.speeds, v ≤ (runAux rng n p).1.maxSpeed) ∧
        (runAux rng n p).1.maxSpeed = p.1.maxSpeed := by
  intro n
  induction n with
  | zero => intro p hp; exact ⟨hp, rfl⟩
  | succ m ih =>
    intro p hp
    have hstep : ∀ v ∈ (step p.1 rng p.2).1.speeds, v ≤ (step p.1 rng p.2).1.maxSpeed := by
      rw [step_maxSpeed_eq]
      exact step_speeds_le p.1 rng p.2 hp
    have h2 := ih (step p.1 rng p.2) hstep
    exact ⟨h2.1, h2.2.trans (step_maxSpeed_eq p.1 rng p.2)⟩

theorem randNats_lt (ints : ℕ → ℕ) (bound : ℕ) (hb : 0 < bound) :
    ∀ (n k : ℕ), ∀ v ∈ (randNats ints k n bound).1, v < bound := by
  intro n
  induction n with
  | zero => intro k v hv; simp [randNats] at hv
  | succ m ih =>
    intro k v hv
    rw [randNats] at hv
    rcases List.mem_cons.mp hv with he | ht
    · exact he ▸ Nat.mod_lt _ hb
    · exact ih (k + 1) v ht

theorem stepN_front (rng : ℕ → ℚ) :
    ∀ (n : ℕ) (p : SimState × ℕ), stepN rng (n + 1) p = stepN rng n (step p.1 rng p.2) := by
  intro n
  induction n with
  | zero => intro p; rfl
  | succ m ih =>
    intro p
    rw [stepN, ih p]
    rfl

theorem runAux_eq_stepN (rng : ℕ → ℚ) :
    ∀ (n : ℕ) (p : SimState × ℕ), runAux rng n p = stepN rng n p := by
  intro n
  induction n with
  | zero => intro p; rfl
  | succ m ih =>
    intro p
    rw [runAux, ih (step p.1 rng p.2), stepN_front]

/-! Concrete inputs used by the evaluation theorems.  All braking-draw values
lie in `[0, 1)`, so they are realizable outputs of `np.random.random()`. -/

/-- A validly constructed state: `road_length = 10`, `max_speed = 5`,
`brake_prob = 1/2`, three vehicles at sorted distinct cells `[3, 5, 9]` with
speeds `[0, 1, 1]`. -/
def c1State : SimState := ⟨10, 5, mkRat 1 2, mkRat 3 10, 3, [3, 5, 9], [0, 1, 1], [], [], []⟩

/-- Braking draws of the three-step run from `c1State`: the eighth draw
(cursor 7) is `0.1 < brake_prob` (brake); every other draw is `0.9` (no
brake). -/
def c1Rng : ℕ → ℚ := fun k => if k = 7 then mkRat 1 10 else mkRat 9 10

/-- A validly constructed state of two vehicles at sorted cells `[3, 9]` with
speeds `[0, 1]` on a road of length 10. -/
def c9State : SimState := ⟨10, 5, mkRat 1 2, mkRat 1 5, 2, [3, 9], [0, 1], [], [], []⟩

/-- Braking draws that never brake (`0.9 ≥ brake_prob` everywhere). -/
def noBrakeRng : ℕ → ℚ := fun _ => mkRat 9 10

/-- Two vehicles at adjacent cells `[0, 1]`, both stopped: the follower's
clamped speed is 0, so it consumes no braking draw. -/
def c7State : SimState := ⟨10, 5, mkRat 1 2, mkRat 1 5, 2, [0, 1], [0, 0], [], [], []⟩

/-- A seeded-stream family for the determinism theorems (its values are
irrelevant when the constructor skips reseeding). -/
def famA : ℕ → (ℕ → ℕ) × (ℕ → ℚ) := fun _ => (fun _ => 0, fun _ => 0)

/-- One ambient state of the process-wide generator. -/
def gA : NpRng := ⟨fun _ => 0, fun _ => 0, 0⟩

/-- A different ambient state of the process-wide generator. -/
def gB : NpRng := ⟨fun _ => 1, fun _ => 0, 0⟩

/-- Constructor parameters `road_length = 4`, `density = 1/2` (two vehicles),
`max_speed = 1`, `brake_prob = 0`. -/
def pC5 : Params := ⟨4, mkRat 1 2, 1, 0⟩

/-- Claim C1 (no-collision invariant) fails on the code: from the validly
constructed state `c1State` (sorted distinct positions `[3, 5, 9]`, speeds in
range), three `step()` calls with realizable braking draws leave two vehicles
on the same cell 4 (`positions = [9, 4, 4]`).  The slip: after wrap-arounds
the positions array is unsorted and `next_vehicles[0]` in `_calculate_gap` is
not the nearest vehicle ahead, so the deceleration rule under-brakes. -/
theorem c1_collision_eval :
    c1State.positions.Nodup ∧ (∀ v ∈ c1State.speeds, v ≤ c1State.maxSpeed) ∧
      (stepN c1Rng 3 (c1State, 0)).1.positions = [9, 4, 4] ∧
      ¬ (stepN c1Rng 3 (c1State, 0)).1.positions.Nodup := by
  decide

/-- Claim C2 (gap query correctness) fails on the code: the state with
positions `[6, 0, 3]` (distinct, all in `[0, 10)`, and reachable — it is the
position array after two steps of the C1 run) gives the vehicle at cell 0 a
gap of `6 − 0 − 1 = 5` (first array element `> 0`), while the claimed formula
`(smallest position > 0) − 0 − 1 = 3 − 0 − 1` gives 2. -/
theorem c2_gap_eval :
    (stepN c1Rng 2 (c1State, 0)).1.positions = [6, 0, 3] ∧
      calculateGap [6, 0, 3] 10 0 = 5 ∧ specGap [6, 0, 3] 10 0 = 2 ∧
      calculateGap [6, 0, 3] 10 0 ≠ specGap [6, 0, 3] 10 0 := by
  decide

/-- Claim C9 (positions stay sorted) fails on the code: one step from the
sorted state `c9State` makes the leader wrap from cell 9 to cell 1 while
keeping its array index, leaving the unsorted array `[4, 1]`. -/
theorem c9_unsorted_eval :
    List.Sorted (· ≤ ·) c9State.positions ∧
      (step c9State noBrakeRng 0).1.positions = [4, 1] ∧
      ¬ List.Sorted (· ≤ ·) (step c9State noBrakeRng 0).1.positions := by
  decide

/-- Claim C7 as stated fails on the code: stepping `c7State` (two vehicles)
consumes only one braking draw, because the follower's clamped speed is 0 and
`new_speeds[idx] > 0 and np.random.random() < brake_prob` short-circuits
before drawing. -/
theorem c7_draw_skip_cex :
    (step c7State noBrakeRng 0).2 = 1 ∧ c7State.numVehicles = 2 ∧
      (step c7State noBrakeRng 0).2 ≠ 0 + c7State.numVehicles := by
  decide

/-- Claim C5 as stated fails on the code at seed 0: `if random_seed:` is
falsy for 0, so the generator is not reseeded, and two engines built with
identical parameters and the provided seed 0 from different ambient generator
states disagree on `positions` already after 0 steps. -/
theorem c5_seed_zero_cex :
    (constructAndRun famA pC5 (some 0) gA 0).1.positions = [0, 1] ∧
      (constructAndRun famA pC5 (some 0) gB 0).1.positions = [1, 2] ∧
      (constructAndRun famA pC5 (some 0) gA 0).1.positions ≠
        (constructAndRun famA pC5 (some 0) gB 0).1.positions := by
  decide

/-- Claim C6 as stated fails on the code: `run_simulation(-1)` does not
reject — `for step in range(-1)` iterates zero times, so the call returns
normally with the state and the draw cursor unchanged. -/
theorem c6_negative_steps_cex :
    runSimulation c9State noBrakeRng 0 (-1) = (c9State, 0) := rfl

/-- Claim C3 (speed bounds invariant): for every constructed engine and every
step count, every vehicle speed after construction and after each step
satisfies `0 ≤ speed ≤ max_speed`.  Initial speeds come from
`np.random.randint(0, max_speed + 1)`; acceleration never exceeds
`max_speed`, and deceleration and braking only lower the speed. -/
theorem c3_speed_bounds (fam : ℕ → (ℕ → ℕ) × (ℕ → ℚ)) (p : Params) (seed : Option ℕ)
    (g0 : NpRng) (steps : ℤ) :
    ∀ v ∈ (constructAndRun fam p seed g0 steps).1.speeds, 0 ≤ v ∧ v ≤ p.maxSpeed := by
  intro v hv
  refine ⟨Nat.zero_le v, ?_⟩
  obtain ⟨ints, kk, hsp⟩ :
      ∃ ints kk, (construct fam p seed g0).1.speeds =
        (randNats ints kk (numVehiclesOf p) (p.maxSpeed + 1)).1 := ⟨_, _, rfl⟩
  have hinit : ∀ w ∈ (construct fam p seed g0).1.speeds,
      w ≤ (construct fam p seed g0).1.maxSpeed := by
    intro w hw
    rw [hsp] at hw
    have := randNats_lt ints (p.maxSpeed + 1) (Nat.succ_pos _) (numVehiclesOf p) kk w hw
    exact Nat.lt_succ_iff.mp this
  have hrun := runAux_speeds_le (construct fam p seed g0).2.rats steps.toNat
    ((construct fam p seed g0).1, (construct fam p seed g0).2.k) hinit
  have hst : (constructAndRun fam p seed g0 steps).1 =
      (runAux (construct fam p seed g0).2.rats steps.toNat
        ((construct fam p seed g0).1, (construct fam p seed g0).2.k)).1 := rfl
  rw [hst] at hv
  have := hrun.1 v hv
  rwa [hrun.2] at this

/-- Witness for C3: a speed of the engine built with seed 1 and run for one
step is within bounds. -/
theorem c3_speed_bounds_witness :
    (0 ∈ (constructAndRun famA pC5 (some 1) gA 1).1.speeds) ∧
      (0 ≤ 0 ∧ 0 ≤ pC5.maxSpeed) :=
  ⟨by decide, c3_speed_bounds famA pC5 (some 1) gA 1 0 (by decide)⟩

/-- Claim C4 (gap respects movement): the post-step speed of every vehicle is
at most the gap computed for it by `_calculate_gap` against the pre-step
positions of all vehicles — during a step every gap query reads the snapshot
taken at the start of the step, never already-updated positions. -/
theorem c4_gap_respects_movement (st : SimState) (rng : ℕ → ℚ) (k : ℕ)
    (hlen : st.speeds.length = st.positions.length)
    (hpos : ∀ q ∈ st.positions, q < st.roadLength) (idx : ℕ)
    (hidx : idx < st.positions.length) :
    (((step st rng k).1.speeds.getD idx 0 : ℕ) : ℤ) ≤
      calculateGap st.positions st.roadLength (st.positions.getD idx 0) := by
  have hmem : idx ∈ argsort st.positions := (mem_argsort _ _).mpr hidx
  have hnd := argsort_nodup st.positions
  have hlt : idx < st.speeds.length := hlen ▸ hidx
  rw [step_speeds_eq]
  unfold stepCore
  obtain ⟨m, hm⟩ := foldl_processOne_speed_at st.roadLength st.maxSpeed st.brakeProb
    st.positions st.speeds rng (argsort st.positions) idx hnd hmem
    (st.speeds, st.positions, k) hlt
  rw [hm]
  exact finalSpeed_le_gap st.roadLength st.maxSpeed st.brakeProb st.positions st.speeds rng m
    idx (hpos _ (getD_mem_of_lt st.positions idx 0 hidx))

/-- Witness for C4: in the state `c9State`, after one step, vehicle 0 has
speed at most its start-of-step gap. -/
theorem c4_gap_respects_movement_witness :
    c9State.speeds.length = c9State.positions.length ∧
      (∀ q ∈ c9State.positions, q < c9State.roadLength) ∧ 0 < c9State.positions.length ∧
      (((step c9State noBrakeRng 0).1.speeds.getD 0 0 : ℕ) : ℤ) ≤
        calculateGap c9State.positions c9State.roadLength (c9State.positions.getD 0 0) :=
  ⟨rfl, by decide, by decide,
    c4_gap_respects_movement c9State noBrakeRng 0 rfl (by decide) 0 (by decide)⟩

/-- Claim C5, amended (determinism for nonzero seeds): two engines built with
identical parameters and the same provided *nonzero* seed produce identical
states — positions, speeds and all three history buffers — and identical
draw cursors after the same number of steps, whatever the ambient generator
states were, because `np.random.seed` deterministically resets the
generator. -/
theorem c5_determinism (fam : ℕ → (ℕ → ℕ) × (ℕ → ℚ)) (p : Params) (s : ℕ) (hs : s ≠ 0)
    (g1 g2 : NpRng) (steps : ℤ) :
    constructAndRun fam p (some s) g1 steps = constructAndRun fam p (some s) g2 steps := by
  simp [constructAndRun, construct, pyTruthy, hs]

/-- Witness for C5: seed 1 with the two different ambient generator states of
the counterexample gives identical runs. -/
theorem c5_determinism_witness :
    constructAndRun famA pC5 (some 1) gA 1 = constructAndRun famA pC5 (some 1) gB 1 :=
  c5_determinism famA pC5 1 (by decide) gA gB 1

/-- Claim C6, amended: `run_simulation(steps)` never rejects; it calls
`step()` exactly `steps.toNat = max(steps, 0)` times sequentially, so every
`steps ≤ 0` — not just `steps == 0` — is a no-op that leaves the state and
the draw cursor unchanged. -/
theorem c6_run_contract (st : SimState) (rng : ℕ → ℚ) (k : ℕ) (steps : ℤ) :
    runSimulation st rng k steps = stepN rng steps.toNat (st, k) ∧
      (steps ≤ 0 → runSimulation st rng k steps = (st, k)) := by
  constructor
  · exact runAux_eq_stepN rng steps.toNat (st, k)
  · intro h
    unfold runSimulation
    rw [Int.toNat_of_nonpos h]
    rfl

/-- Witness for C6: running `-2` steps returns the state unchanged. -/
theorem c6_run_contract_witness :
    runSimulation c9State noBrakeRng 0 (-2) = (c9State, 0) :=
  (c6_run_contract c9State noBrakeRng 0 (-2)).2 (by decide)

/-- Claim C7, amended: during every `step()` call the generator advances by
exactly one braking draw per vehicle whose post-clamp speed is positive;
vehicles whose clamped speed is 0 consume no draw, because
`new_speeds[idx] > 0 and np.random.random() < self.brake_prob`
short-circuits before drawing. -/
theorem c7_draw_discipline (st : SimState) (rng : ℕ → ℚ) (k : ℕ) :
    (step st rng k).2 = k + (argsort st.positions).countP
      (fun idx =>
        decide (0 < postClampSpeed st.roadLength st.maxSpeed st.positions st.speeds idx)) := by
  have h : (step st rng k).2 = (stepCore st rng k).2.2 := rfl
  rw [h]
  unfold stepCore
  exact foldl_processOne_cursor st.roadLength st.maxSpeed st.brakeProb st.positions st.speeds
    rng (argsort st.positions) (st.speeds, st.positions, k)

/-- Claim C8 (metrics recording): each `step()` appends exactly one element to
each history buffer — the occupancy snapshot, `flow = sum(speeds) /
road_length`, and `avg_speed = mean(speeds)` if `vehicle_count > 0` else 0,
with speeds taken post-step — and leaves all previously appended elements in
place. -/
theorem c8_metrics_recording (st : SimState) (rng : ℕ → ℚ) (k : ℕ)
    (hlen : st.speeds.length = st.numVehicles) :
    (step st rng k).1.spaceTimeData = st.spaceTimeData ++ [getRoadState (step st rng k).1] ∧
      (step st rng k).1.flowData =
        st.flowData ++ [(((step st rng k).1.speeds.sum : ℚ)) / (st.roadLength : ℚ)] ∧
      (step st rng k).1.avgSpeedData =
        st.avgSpeedData ++ [if 0 < st.numVehicles then
          (((step st rng k).1.speeds.sum : ℚ)) / (st.numVehicles : ℚ) else 0] := by
  have hl : (stepCore st rng k).1.length = st.numVehicles := by
    have h := (foldl_processOne_lengths st.roadLength st.maxSpeed st.brakeProb st.positions
      st.speeds rng (argsort st.positions) (st.speeds, st.positions, k)).1
    unfold stepCore
    exact h.trans hlen
  refine ⟨rfl, rfl, ?_⟩
  show ({ st with
      speeds := (stepCore st rng k).1
      positions := (stepCore st rng k).2.1 } : SimState).avgSpeedData ++
        [if 0 < (stepCore st rng k).1.length then
          (((stepCore st rng k).1.sum : ℚ)) / ((stepCore st rng k).1.length : ℚ) else 0] = _
  rw [hl]
  rfl

/-- Witness for C8: one step from `c9State` appends the three recorded
values. -/
theorem c8_metrics_recording_witness :
    c9State.speeds.length = c9State.numVehicles ∧
      ((step c9State noBrakeRng 0).1.spaceTimeData =
          c9State.spaceTimeData ++ [getRoadState (step c9State noBrakeRng 0).1] ∧
        (step c9State noBrakeRng 0).1.flowData =
          c9State.flowData ++
            [(((step c9State noBrakeRng 0).1.speeds.sum : ℚ)) / (c9State.roadLength : ℚ)] ∧
        (step c9State noBrakeRng 0).1.avgSpeedData =
          c9State.avgSpeedData ++ [if 0 < c9State.numVehicles then
            (((step c9State noBrakeRng 0).1.speeds.sum : ℚ)) / (c9State.numVehicles : ℚ)
          else 0]) :=
  ⟨rfl, c8_metrics_recording c9State noBrakeRng 0 rfl⟩

/-- Claim C10 (frame property of `step`): a step changes only the vehicle
arrays and appends to the three history buffers; `road_length`, `max_speed`,
`brake_prob`, `density` and `num_vehicles` are unchanged, and the vehicle
arrays keep length `num_vehicles`. -/
theorem c10_frame (st : SimState) (rng : ℕ → ℚ) (k : ℕ)
    (hp : st.positions.length = st.numVehicles) (hs : st.speeds.length = st.numVehicles) :
    (step st rng k).1.roadLength = st.roadLength ∧
      (step st rng k).1.maxSpeed = st.maxSpeed ∧
      (step st rng k).1.brakeProb = st.brakeProb ∧
      (step st rng k).1.density = st.density ∧
      (step st rng k).1.numVehicles = st.numVehicles ∧
      (step st rng k).1.positions.length = st.numVehicles ∧
      (step st rng k).1.speeds.length = st.numVehicles ∧
      (∃ r, (step st rng k).1.spaceTimeData = st.spaceTimeData ++ [r]) ∧
      (∃ q, (step st rng k).1.flowData = st.flowData ++ [q]) ∧
      (∃ q, (step st rng k).1.avgSpeedData = st.avgSpeedData ++ [q]) := by
  have hfold := foldl_processOne_lengths st.roadLength st.maxSpeed st.brakeProb st.positions
    st.speeds rng (argsort st.positions) (st.speeds, st.positions, k)
  refine ⟨rfl, rfl, rfl, rfl, rfl, ?_, ?_, ⟨_, rfl⟩, ⟨_, rfl⟩, ⟨_, rfl⟩⟩
  · show (stepCore st rng k).2.1.length = st.numVehicles
    unfold stepCore
    exact hfold.2.trans hp
  · show (stepCore st rng k).1.length = st.numVehicles
    unfold stepCore
    exact hfold.1.trans hs

/-- Witness for C10: one step from `c9State` preserves the parameters and the
array lengths. -/
theorem c10_frame_witness :
    c9State.positions.length = c9State.numVehicles ∧
      c9State.speeds.length = c9State.numVehicles ∧
      ((step c9State noBrakeRng 0).1.roadLength = c9State.roadLength ∧
        (step c9State noBrakeRng 0).1.maxSpeed = c9State.maxSpeed ∧
        (step c9State noBrakeRng 0).1.brakeProb = c9State.brakeProb ∧
        (step c9State noBrakeRng 0).1.density = c9State.density ∧
        (step c9State noBrakeRng 0).1.numVehicles = c9State.numVehicles ∧
        (step c9State noBrakeRng 0).1.positions.length = c9State.numVehicles ∧
        (step c9State noBrakeRng 0).1.speeds.length = c9State.numVehicles ∧
        (∃ r, (step c9State noBrakeRng 0).1.spaceTimeData = c9State.spaceTimeData ++ [r]) ∧
        (∃ q, (step c9State noBrakeRng 0).1.flowData = c9State.flowData ++ [q]) ∧
        (∃ q, (step c9State noBrakeRng 0).1.avgSpeedData = c9State.avgSpeedData ++ [q])) :=
  ⟨rfl, rfl, c10_frame c9State noBrakeRng 0 rfl rfl⟩

end TrafficSim
